import Mathlib

/-!
Verification of the backup-cycle core of pve-config-backup.py: snapshot
naming, the copy executor, the retention enforcer, and the daemon loop,
shallowly embedded as pure Lean functions over an explicit directory-entry
state.
-/

namespace PveConfigBackup

/-! ## Configuration constants (the CONFIG dict) -/

def CONFIG_nfs_base_backup_path : String := "/mnt/pve/pve-config-backup"

def CONFIG_config_paths : List String := ["/etc/pve/nodes"]

def CONFIG_max_backups : Nat := 100

def CONFIG_backup_interval : Nat := 300

/-! ## Snapshot Namer

The code derives the snapshot name from the current wall-clock time with
strftime format YYYY-MM-DD_HHMMSS (all fields zero-padded, ASCII only).
A timestamp is embedded as its six broken-down calendar fields. -/

structure Timestamp where
  year : Nat
  month : Nat
  day : Nat
  hour : Nat
  minute : Nat
  second : Nat
deriving DecidableEq, Repr

/-- Two zero-padded decimal digits, as strftime prints a field < 100. -/
def pad2 (n : Nat) : List Char := [Nat.digitChar (n / 10), Nat.digitChar (n % 10)]

/-- Four zero-padded decimal digits (the year field of the format string). -/
def pad4 (n : Nat) : List Char := pad2 (n / 100) ++ pad2 (n % 100)

/-- The character list printed by strftime for format YYYY-MM-DD_HHMMSS. -/
def Timestamp.fmtChars (t : Timestamp) : List Char :=
  pad4 t.year ++ '-' ::
    (pad2 t.month ++ '-' ::
      (pad2 t.day ++ '_' ::
        (pad2 t.hour ++ (pad2 t.minute ++ pad2 t.second))))

/-- datetime.now().strftime with the format string used by perform_rsync. -/
def strftime_YmdHMS (t : Timestamp) : String := String.mk t.fmtChars

/-- The snapshot directory name built in perform_rsync. -/
def snapshotName (t : Timestamp) : String := "config_backup_" ++ strftime_YmdHMS t

/-- Chronological order at one-second resolution is the order of this
numeric key (each non-year field of a valid timestamp is below 100). -/
def Timestamp.key (t : Timestamp) : Nat :=
  ((((t.year * 100 + t.month) * 100 + t.day) * 100 + t.hour) * 100 + t.minute) * 100
    + t.second

/-- Strictly earlier by at least one second (second-resolution timestamps). -/
def Timestamp.Before (a b : Timestamp) : Prop := a.key < b.key

/-- Field bounds under which the strftime output is fixed-width: a four-digit
year and two-digit remaining fields (true of every real calendar time). -/
def Timestamp.InRange (t : Timestamp) : Prop :=
  1000 ≤ t.year ∧ t.year < 10000 ∧ t.month < 100 ∧ t.day < 100 ∧
    t.hour < 100 ∧ t.minute < 100 ∧ t.second < 100

instance (t : Timestamp) : Decidable t.InRange := by
  unfold Timestamp.InRange
  infer_instance

instance (a b : Timestamp) : Decidable (a.Before b) := by
  unfold Timestamp.Before
  infer_instance

/-! ## Retention Enforcer (rotate_backups)

The directory entries under a host backup root are embedded as a list of
distinct entry names. glob with pattern config_backup_* selects exactly the
direct entries whose name starts with config_backup_; for a fixed root,
sorting the globbed absolute paths is sorting the entry names. -/

/-- Whether a directory entry is matched by glob(config_backup_*): the glob
pattern is a literal prefix followed by a star, so it matches exactly the
names whose character sequence starts with that literal. -/
def snapPat (name : String) : Bool := "config_backup_".data.isPrefixOf name.data

/-- Executable strict lexicographic comparison of character lists (the
comparison Python applies to the snapshot path strings). -/
def charListLt : List Char → List Char → Bool
  | [], [] => false
  | [], _ :: _ => true
  | _ :: _, [] => false
  | a :: as, b :: bs =>
    if a < b then true else if b < a then false else charListLt as bs

/-- The descending relation used by sorted(..., reverse=True): a before b
when b is not strictly greater, that is when a is greater-or-equal. -/
def descRel (a b : String) : Prop := charListLt a.data b.data = false

instance : DecidableRel descRel :=
  fun a b => instDecidableEqBool (charListLt a.data b.data) false

/-- sorted(..., reverse=True): descending lexicographic sort. -/
def sortDesc (l : List String) : List String := List.insertionSort descRel l

/-- One loop iteration of rotate_backups: shutil.rmtree wrapped in
try/except-pass. Whether the removal succeeds is supplied by the
deleteOk oracle; on failure the except branch does nothing (and logs
nothing: the handler body is pass). -/
def tryRmtree (deleteOk : String → Bool) (fs : List String) (e : String) :
    List String :=
  if deleteOk e then fs.erase e else fs

structure RotateResult where
  fs : List String
  logs : List String
deriving DecidableEq, Repr

/-- rotate_backups: glob the snapshot entries, sort them descending, and if
there are more than maxBackups, try to delete each entry past that count.
No logging call occurs anywhere in the function. -/
def rotate_backups (maxBackups : Nat) (deleteOk : String → Bool)
    (fs : List String) : RotateResult :=
  if (sortDesc (fs.filter snapPat)).length > maxBackups then
    { fs := ((sortDesc (fs.filter snapPat)).drop maxBackups).foldl
        (tryRmtree deleteOk) fs,
      logs := [] }
  else
    { fs := fs, logs := [] }

/-! ## Copy Executor (perform_rsync)

Oracles: existsOnDisk is os.path.exists on a source path; rsyncOk tells
whether the rsync subprocess for that path exits successfully. The entries
already present in the destination directory are passed in so that
os.makedirs(backup_path) — called without exist_ok — can be embedded as a
fallible step. -/

/-- The for-loop of perform_rsync together with the try/except around it:
paths are processed in order; a missing path is skipped silently; the first
failing rsync raises CalledProcessError, which the except catches, so the
loop stops there and the remaining paths are not processed. Returns the
list of paths actually copied and the success flag. -/
def copyLoop (existsOnDisk rsyncOk : String → Bool) :
    List String → List String × Bool
  | [] => ([], true)
  | p :: rest =>
    if existsOnDisk p then
      if rsyncOk p then
        let r := copyLoop existsOnDisk rsyncOk rest
        (p :: r.1, r.2)
      else
        ([], false)
    else
      copyLoop existsOnDisk rsyncOk rest

structure RsyncResult where
  backup_path : String
  success : Bool
  copied : List String
  destEntriesAfter : List String
  logs : List String
deriving DecidableEq, Repr

/-- perform_rsync: build the timestamped snapshot name, create the snapshot
directory with os.makedirs (no exist_ok: raises FileExistsError if the
name is already present in dest), then run the copy loop. It performs no
logging call. The error case of the Except is an uncaught Python
exception propagating to the caller. -/
def perform_rsync (existsOnDisk rsyncOk : String → Bool)
    (destEntries : List String) (source : List String) (dest : String)
    (t : Timestamp) : Except String RsyncResult :=
  let name := snapshotName t
  if destEntries.contains name then
    .error "FileExistsError"
  else
    let r := copyLoop existsOnDisk rsyncOk source
    .ok { backup_path := dest ++ "/" ++ name
          success := r.2
          copied := r.1
          destEntriesAfter := name :: destEntries
          logs := [] }

/-! ## Cycle Controller and Daemon Loop (run_daemon)

State: whether the host backup root exists, its entry names, and the log
lines written so far. One iteration of the while-True body is a cycle; the
loop itself contains no try/except, so an exception from a cycle is an
error of the whole run. -/

structure DaemonState where
  hostRootExists : Bool
  hostEntries : List String
  logs : List String
deriving DecidableEq, Repr

/-- os.path.join(CONFIG nfs_base_backup_path, hostname). -/
def hostBackupRoot (hostname : String) : String :=
  CONFIG_nfs_base_backup_path ++ "/" ++ hostname

/-- The per-cycle inputs: the mount-check outcome, the wall-clock time at
which the snapshot name is derived, and the filesystem oracles. -/
structure CycleInput where
  mounted : Bool
  t : Timestamp
  existsOnDisk : String → Bool
  rsyncOk : String → Bool
  deleteOk : String → Bool

/-- The body of the while-True loop in run_daemon: check_nfs_mount gates
the whole cycle; create_backup_dir (os.makedirs with exist_ok=True) makes
the host backup root exist; then perform_rsync, then rotate_backups, then
the outcome log line. There is no exception handler here: an error from
perform_rsync propagates. -/
def runCycleOnce (cfgPaths : List String) (maxBackups : Nat)
    (hostname : String) (inp : CycleInput) (s : DaemonState) :
    Except String DaemonState :=
  if inp.mounted then
    match perform_rsync inp.existsOnDisk inp.rsyncOk s.hostEntries cfgPaths
        (hostBackupRoot hostname) inp.t with
    | .error e => .error e
    | .ok r =>
      let rot := rotate_backups maxBackups inp.deleteOk r.destEntriesAfter
      .ok { hostRootExists := true
            hostEntries := rot.fs
            logs := s.logs ++ r.logs ++ rot.logs ++
              [if r.success then "Backup completed successfully"
               else "Backup failed"] }
  else
    .ok { s with logs := s.logs ++ ["NFS not mounted, skipping backup cycle"] }

/-- run_daemon, observed over a finite prefix of the infinite loop: one
CycleInput per iteration. No try/except surrounds the body, so the first
in-cycle exception terminates the whole loop. -/
def run_daemon (cfgPaths : List String) (maxBackups : Nat)
    (hostname : String) : List CycleInput → DaemonState →
    Except String DaemonState
  | [], s => .ok s
  | inp :: rest, s =>
    match runCycleOnce cfgPaths maxBackups hostname inp s with
    | .error e => .error e
    | .ok s1 => run_daemon cfgPaths maxBackups hostname rest s1

end PveConfigBackup

namespace PveConfigBackup

/-! ## Ordering lemmas for the snapshot identifier (claim C5 support) -/

theorem digitChar_mono :
    ∀ a < 10, ∀ b < 10, a < b → Nat.digitChar a < Nat.digitChar b := by
  decide

/-- Lexicographic order is preserved by a common prefix. -/
theorem lex_append_left {r : Char → Char → Prop} :
    ∀ (xs l1 l2 : List Char), List.Lex r l1 l2 →
      List.Lex r (xs ++ l1) (xs ++ l2)
  | [], _, _, h => h
  | _ :: xs, l1, l2, h => List.Lex.cons (lex_append_left xs l1 l2 h)

/-- Comparing two two-digit fields decides the comparison of anything that
follows them, when the field values differ. -/
theorem pad2_lex {m n : Nat} (hm : m < 100) (hn : n < 100) (h : m < n)
    (r1 r2 : List Char) :
    List.Lex (· < ·) (pad2 m ++ r1) (pad2 n ++ r2) := by
  rcases Nat.lt_or_ge (m / 10) (n / 10) with h1 | h1
  · exact List.Lex.rel (digitChar_mono _ (by omega) _ (by omega) h1)
  · have heq : m / 10 = n / 10 := by omega
    have h2 : m % 10 < n % 10 := by omega
    simp only [pad2, heq, List.cons_append]
    exact List.Lex.cons
      (List.Lex.rel (digitChar_mono _ (by omega) _ (by omega) h2))

/-- Same for the four-digit year field. -/
theorem pad4_lex {m n : Nat} (hm : m < 10000) (hn : n < 10000) (h : m < n)
    (r1 r2 : List Char) :
    List.Lex (· < ·) (pad4 m ++ r1) (pad4 n ++ r2) := by
  rcases Nat.lt_or_ge (m / 100) (n / 100) with h1 | h1
  · simp only [pad4, List.append_assoc]
    exact pad2_lex (by omega) (by omega) h1 _ _
  · have heq : m / 100 = n / 100 := by omega
    have h2 : m % 100 < n % 100 := by omega
    simp only [pad4, List.append_assoc, heq]
    exact lex_append_left (pad2 (n / 100)) _ _ (pad2_lex (by omega) (by omega) h2 _ _)

theorem key_cases {t1 t2 : Timestamp} (h1 : t1.InRange) (h2 : t2.InRange)
    (h : t1.Before t2) :
    t1.year < t2.year ∨ (t1.year = t2.year ∧
      (t1.month < t2.month ∨ (t1.month = t2.month ∧
        (t1.day < t2.day ∨ (t1.day = t2.day ∧
          (t1.hour < t2.hour ∨ (t1.hour = t2.hour ∧
            (t1.minute < t2.minute ∨ (t1.minute = t2.minute ∧
              t1.second < t2.second))))))))) := by
  unfold Timestamp.InRange at h1 h2
  unfold Timestamp.Before Timestamp.key at h
  omega

theorem fmtChars_lex {t1 t2 : Timestamp} (h1 : t1.InRange) (h2 : t2.InRange)
    (h : t1.Before t2) :
    List.Lex (· < ·) t1.fmtChars t2.fmtChars := by
  obtain ⟨hy1l, hy1, hmo1, hd1, hh1, hmi1, hs1⟩ := h1
  obtain ⟨hy2l, hy2, hmo2, hd2, hh2, hmi2, hs2⟩ := h2
  rcases key_cases ⟨hy1l, hy1, hmo1, hd1, hh1, hmi1, hs1⟩
      ⟨hy2l, hy2, hmo2, hd2, hh2, hmi2, hs2⟩ h with
    hy | ⟨ey, hmo | ⟨emo, hd | ⟨ed, hh | ⟨eh, hmi | ⟨emi, hs⟩⟩⟩⟩⟩ <;>
    simp only [Timestamp.fmtChars]
  · exact pad4_lex hy1 hy2 hy _ _
  · rw [ey]
    refine lex_append_left _ _ _ (List.Lex.cons ?_)
    exact pad2_lex hmo1 hmo2 hmo _ _
  · rw [ey, emo]
    refine lex_append_left _ _ _ (List.Lex.cons (lex_append_left _ _ _ (List.Lex.cons ?_)))
    exact pad2_lex hd1 hd2 hd _ _
  · rw [ey, emo, ed]
    refine lex_append_left _ _ _ (List.Lex.cons (lex_append_left _ _ _
      (List.Lex.cons (lex_append_left _ _ _ (List.Lex.cons ?_)))))
    exact pad2_lex hh1 hh2 hh _ _
  · rw [ey, emo, ed, eh]
    refine lex_append_left _ _ _ (List.Lex.cons (lex_append_left _ _ _
      (List.Lex.cons (lex_append_left _ _ _ (List.Lex.cons
        (lex_append_left _ _ _ ?_))))))
    exact pad2_lex hmi1 hmi2 hmi _ _
  · rw [ey, emo, ed, eh, emi]
    refine lex_append_left _ _ _ (List.Lex.cons (lex_append_left _ _ _
      (List.Lex.cons (lex_append_left _ _ _ (List.Lex.cons
        (lex_append_left _ _ _ (lex_append_left _ _ _ ?_)))))))
    rcases Nat.lt_or_ge (t1.second / 10) (t2.second / 10) with hq | hq
    · exact List.Lex.rel (digitChar_mono _ (by omega) _ (by omega) hq)
    · have heq : t1.second / 10 = t2.second / 10 := by omega
      simp only [pad2, heq]
      exact List.Lex.cons (List.Lex.rel
        (digitChar_mono _ (by omega) _ (by omega) (by omega)))

/-- Identifier comparison reduces to comparison of the formatted chars. -/
theorem snapshotName_lt_iff_fmt (t1 t2 : Timestamp) :
    snapshotName t1 < snapshotName t2 ↔
      List.Lex (· < ·) t1.fmtChars t2.fmtChars := by
  rw [String.lt_iff_toList_lt]
  constructor
  · intro h
    have h2 : List.Lex (· < ·)
        ("config_backup_".data ++ t1.fmtChars)
        ("config_backup_".data ++ t2.fmtChars) := by
      simpa [snapshotName, strftime_YmdHMS, String.toList, String.data_append] using h
    clear h
    generalize "config_backup_".data = xs at h2
    induction xs with
    | nil => exact h2
    | cons c cs ih =>
      cases h2 with
      | rel hr => exact absurd hr (lt_irrefl c)
      | cons htl => exact ih htl
  · intro h
    show List.Lex (· < ·) _ _
    simpa [snapshotName, strftime_YmdHMS, String.toList, String.data_append] using
      lex_append_left "config_backup_".data _ _ h

/-- C5: snapshot identifiers derived from wall-clock times at least one
second apart (with real calendar field widths) compare lexicographically
in the same order as the times compare chronologically. -/
theorem C5_snapshot_name_order (t1 t2 : Timestamp)
    (h1 : t1.InRange) (h2 : t2.InRange) (h : t1.Before t2) :
    snapshotName t1 < snapshotName t2 := by
  rw [snapshotName_lt_iff_fmt]
  exact fmtChars_lex h1 h2 h

/-! ## Retention Enforcer lemmas -/

theorem contains_eq_true_of_mem {l : List String} {a : String} (h : a ∈ l) :
    l.contains a = true :=
  List.elem_iff.mpr h

theorem contains_eq_false_of_not_mem {l : List String} {a : String}
    (h : a ∉ l) : l.contains a = false := by
  rw [Bool.eq_false_iff]
  intro hc
  exact h (List.elem_iff.mp hc)

theorem charListLt_iff :
    ∀ (l1 l2 : List Char), charListLt l1 l2 = true ↔ List.Lex (· < ·) l1 l2
  | [], [] => by
    simp only [charListLt]
    exact iff_of_false (by simp) (List.Lex.not_nil_right _ _)
  | [], _ :: _ => by
    simp only [charListLt]
    exact iff_of_true trivial List.Lex.nil
  | _ :: _, [] => by
    simp only [charListLt]
    exact iff_of_false (by simp) (List.Lex.not_nil_right _ _)
  | a :: as, b :: bs => by
    simp only [charListLt]
    by_cases hab : a < b
    · rw [if_pos hab]
      exact iff_of_true rfl (List.Lex.rel hab)
    · rw [if_neg hab]
      by_cases hba : b < a
      · rw [if_pos hba]
        refine iff_of_false (by simp) ?_
        intro hlex
        cases hlex with
        | rel h => exact hab h
        | cons h => exact lt_irrefl a hba
      · rw [if_neg hba]
        have he : a = b := le_antisymm (not_lt.mp hba) (not_lt.mp hab)
        subst he
        rw [charListLt_iff as bs]
        constructor
        · exact fun h => List.Lex.cons h
        · intro hlex
          cases hlex with
          | rel h => exact absurd h (lt_irrefl a)
          | cons h => exact h

theorem descRel_iff (a b : String) : descRel a b ↔ b ≤ a := by
  unfold descRel
  rw [Bool.eq_false_iff, Ne, charListLt_iff, String.le_iff_toList_le, ← not_lt]
  exact Iff.rfl

instance : IsTotal String descRel :=
  ⟨fun a b => by
    rcases le_total b a with h | h
    · exact Or.inl ((descRel_iff a b).mpr h)
    · exact Or.inr ((descRel_iff b a).mpr h)⟩

instance : IsTrans String descRel :=
  ⟨fun a b c h1 h2 =>
    (descRel_iff a c).mpr
      (le_trans ((descRel_iff b c).mp h2) ((descRel_iff a b).mp h1))⟩

theorem sortDesc_perm (l : List String) : (sortDesc l).Perm l :=
  List.perm_insertionSort descRel l

theorem sortDesc_sorted (l : List String) : List.Sorted descRel (sortDesc l) :=
  List.sorted_insertionSort descRel l

theorem sortDesc_length (l : List String) : (sortDesc l).length = l.length :=
  (sortDesc_perm l).length_eq

/-- The deletion loop over a duplicate-free entry list removes exactly the
listed entries whose removal succeeds; a failed removal affects nothing
else and does not stop the loop. -/
theorem foldl_tryRm (ok : String → Bool) :
    ∀ (ds fs : List String), fs.Nodup →
      ds.foldl (tryRmtree ok) fs = fs.filter (fun e => !(ds.contains e && ok e))
  | [], fs, _ => by simp
  | d :: ds, fs, hnd => by
    rw [List.foldl_cons]
    by_cases hok : ok d = true
    · have h1 : tryRmtree ok fs d = fs.filter (fun e => e != d) := by
        rw [tryRmtree, if_pos hok, List.Nodup.erase_eq_filter hnd]
      rw [h1, foldl_tryRm ok ds _ (List.Nodup.filter _ hnd), List.filter_filter]
      refine List.filter_congr (fun e _ => ?_)
      by_cases he : e = d
      · subst he
        simp [hok, List.contains_cons]
      · simp [List.contains_cons, he, bne_iff_ne, Ne, not_false_iff]
    · have h1 : tryRmtree ok fs d = fs := by
        rw [tryRmtree, if_neg hok]
      rw [h1, foldl_tryRm ok ds fs hnd]
      refine List.filter_congr (fun e _ => ?_)
      by_cases he : e = d
      · subst he
        simp [List.contains_cons, hok]
      · simp [List.contains_cons, he]

theorem rotate_fs_of_gt (M : Nat) (ok : String → Bool) (fs : List String)
    (hnd : fs.Nodup) (h : M < (fs.filter snapPat).length) :
    (rotate_backups M ok fs).fs
      = fs.filter
          (fun e => !(((sortDesc (fs.filter snapPat)).drop M).contains e && ok e)) := by
  unfold rotate_backups
  rw [if_pos (by rw [sortDesc_length]; omega)]
  exact foldl_tryRm ok _ fs hnd

theorem rotate_fs_of_le (M : Nat) (ok : String → Bool) (fs : List String)
    (h : (fs.filter snapPat).length ≤ M) :
    (rotate_backups M ok fs).fs = fs := by
  unfold rotate_backups
  rw [if_neg (by rw [sortDesc_length]; omega)]

theorem rotate_logs (M : Nat) (ok : String → Bool) (fs : List String) :
    (rotate_backups M ok fs).logs = [] := by
  unfold rotate_backups
  split <;> rfl

/-- Witness for C5 at two concrete timestamps one second apart. -/
theorem C5_snapshot_name_order_witness :
    (Timestamp.mk 2024 6 1 12 30 58).InRange ∧
    (Timestamp.mk 2024 6 1 12 30 59).InRange ∧
    (Timestamp.mk 2024 6 1 12 30 58).Before (Timestamp.mk 2024 6 1 12 30 59) ∧
    snapshotName (Timestamp.mk 2024 6 1 12 30 58) <
      snapshotName (Timestamp.mk 2024 6 1 12 30 59) :=
  ⟨by decide, by decide, by decide,
    C5_snapshot_name_order _ _ (by decide) (by decide) (by decide)⟩

end PveConfigBackup

namespace PveConfigBackup

/-! ## Claims about the Retention Enforcer -/

/-- C1: over a host backup root with N pattern-matching entries and maximum
M, a retention pass with succeeding deletions removes exactly the N−M
oldest-by-name snapshot entries when N > M (the survivors are the fs
entries outside the dropped tail of the descending sort, whose length is
N−M, whose members all match the pattern, and each of which compares at
most every kept snapshot), removes nothing when N ≤ M, and never deletes
an entry that does not match the snapshot naming pattern. -/
theorem C1_retention_exact (M : Nat) (fs : List String) (hnd : fs.Nodup) :
    (M < (fs.filter snapPat).length →
      (rotate_backups M (fun _ => true) fs).fs
        = fs.filter (fun e => !((sortDesc (fs.filter snapPat)).drop M).contains e)
      ∧ ((sortDesc (fs.filter snapPat)).drop M).length
          = (fs.filter snapPat).length - M
      ∧ (∀ e ∈ (sortDesc (fs.filter snapPat)).drop M, snapPat e = true)
      ∧ (∀ e ∈ (sortDesc (fs.filter snapPat)).drop M,
          ∀ e2 ∈ (sortDesc (fs.filter snapPat)).take M, e ≤ e2))
    ∧ ((fs.filter snapPat).length ≤ M →
        (rotate_backups M (fun _ => true) fs).fs = fs)
    ∧ (∀ e ∈ fs, snapPat e = false →
        e ∈ (rotate_backups M (fun _ => true) fs).fs) := by
  refine ⟨fun h => ⟨?_, ?_, ?_, ?_⟩, fun h => rotate_fs_of_le M _ fs h, ?_⟩
  · rw [rotate_fs_of_gt M _ fs hnd h]
    exact List.filter_congr (fun e _ => by simp)
  · rw [List.length_drop, sortDesc_length]
  · intro e he
    exact List.of_mem_filter
      ((sortDesc_perm _).mem_iff.mp (List.mem_of_mem_drop he))
  · intro e he e2 he2
    have hp : List.Pairwise descRel
        ((sortDesc (fs.filter snapPat)).take M
          ++ (sortDesc (fs.filter snapPat)).drop M) := by
      rw [List.take_append_drop]
      exact sortDesc_sorted _
    exact (descRel_iff e2 e).mp ((List.pairwise_append.mp hp).2.2 e2 he2 e he)
  · intro e he hpat
    by_cases h : M < (fs.filter snapPat).length
    · rw [rotate_fs_of_gt M _ fs hnd h]
      refine List.mem_filter.mpr ⟨he, ?_⟩
      have hnm : e ∉ (sortDesc (fs.filter snapPat)).drop M := by
        intro hmem
        have h1 := List.of_mem_filter
          ((sortDesc_perm _).mem_iff.mp (List.mem_of_mem_drop hmem))
        rw [hpat] at h1
        exact Bool.false_ne_true h1
      simp only [contains_eq_false_of_not_mem hnm, Bool.false_and, Bool.not_false]
    · rw [rotate_fs_of_le M _ fs (by omega)]
      exact he

/-- Witness for C1 on a four-entry root with one non-matching entry and
max_backups 1: the two oldest snapshots are removed, the newest snapshot
and the non-matching entry survive. -/
theorem C1_retention_exact_witness :
    (["other", "config_backup_2024-01-03_000000",
      "config_backup_2024-01-01_000000",
      "config_backup_2024-01-02_000000"] : List String).Nodup ∧
    (rotate_backups 1 (fun _ => true)
      ["other", "config_backup_2024-01-03_000000",
       "config_backup_2024-01-01_000000",
       "config_backup_2024-01-02_000000"]).fs
      = ["other", "config_backup_2024-01-03_000000"] :=
  ⟨by decide,
    Eq.trans
      (((C1_retention_exact 1
        ["other", "config_backup_2024-01-03_000000",
         "config_backup_2024-01-01_000000",
         "config_backup_2024-01-02_000000"] (by decide)).1 (by decide)).1)
      (by decide)⟩

/-- C6: retention is idempotent; immediately re-running the pass (all
deletions succeeding, no snapshot created in between) deletes nothing. -/
theorem C6_retention_idempotent (M : Nat) (fs : List String)
    (hnd : fs.Nodup) :
    (rotate_backups M (fun _ => true)
        (rotate_backups M (fun _ => true) fs).fs).fs
      = (rotate_backups M (fun _ => true) fs).fs := by
  by_cases h : M < (fs.filter snapPat).length
  · rw [rotate_fs_of_gt M _ fs hnd h]
    refine rotate_fs_of_le M _ _ ?_
    have key : (fs.filter (fun e =>
          !(((sortDesc (fs.filter snapPat)).drop M).contains e && true))).filter snapPat
        = (fs.filter snapPat).filter (fun e =>
            !(((sortDesc (fs.filter snapPat)).drop M).contains e && true)) := by
      rw [List.filter_filter, List.filter_filter]
      exact List.filter_congr (fun e _ => by rw [Bool.and_comm])
    rw [key]
    have hp := ((sortDesc_perm (fs.filter snapPat)).filter (fun e =>
      !(((sortDesc (fs.filter snapPat)).drop M).contains e && true))).length_eq
    rw [← hp]
    have hsplit : (sortDesc (fs.filter snapPat)).filter (fun e =>
          !(((sortDesc (fs.filter snapPat)).drop M).contains e && true))
        = ((sortDesc (fs.filter snapPat)).take M).filter (fun e =>
            !(((sortDesc (fs.filter snapPat)).drop M).contains e && true))
          ++ ((sortDesc (fs.filter snapPat)).drop M).filter (fun e =>
            !(((sortDesc (fs.filter snapPat)).drop M).contains e && true)) := by
      have h0 := @List.filter_append String (fun e =>
          !(((sortDesc (fs.filter snapPat)).drop M).contains e && true))
        ((sortDesc (fs.filter snapPat)).take M)
        ((sortDesc (fs.filter snapPat)).drop M)
      rw [List.take_append_drop] at h0
      exact h0
    have hnil : ((sortDesc (fs.filter snapPat)).drop M).filter (fun e =>
        !(((sortDesc (fs.filter snapPat)).drop M).contains e && true)) = [] := by
      rw [List.filter_eq_nil_iff]
      intro a ha
      simp only [contains_eq_true_of_mem ha, Bool.true_and, Bool.and_true,
        Bool.not_true]
      exact Bool.false_ne_true
    rw [hsplit, hnil, List.append_nil]
    calc (((sortDesc (fs.filter snapPat)).take M).filter _).length
        ≤ ((sortDesc (fs.filter snapPat)).take M).length :=
          List.length_filter_le _ _
      _ ≤ M := List.length_take_le M _
  · rw [rotate_fs_of_le M _ fs (by omega)]
    exact rotate_fs_of_le M _ fs (by omega)

/-- Witness for C6 on a concrete three-snapshot root with max_backups 1. -/
theorem C6_retention_idempotent_witness :
    (["config_backup_2024-01-01_000000", "config_backup_2024-01-02_000000",
      "config_backup_2024-01-03_000000"] : List String).Nodup ∧
    (rotate_backups 1 (fun _ => true)
        (rotate_backups 1 (fun _ => true)
          ["config_backup_2024-01-01_000000", "config_backup_2024-01-02_000000",
           "config_backup_2024-01-03_000000"]).fs).fs
      = (rotate_backups 1 (fun _ => true)
          ["config_backup_2024-01-01_000000", "config_backup_2024-01-02_000000",
           "config_backup_2024-01-03_000000"]).fs :=
  ⟨by decide,
    C6_retention_idempotent 1
      ["config_backup_2024-01-01_000000", "config_backup_2024-01-02_000000",
       "config_backup_2024-01-03_000000"] (by decide)⟩

/-- C7 counterexample: with max_backups 1 and three snapshots, the removal
of the oldest snapshot fails, yet rotate_backups emits no log line at all
(its except branch is pass), refuting the claim that an individual
deletion failure is logged. The other excess snapshot is still deleted. -/
theorem C7_counterexample_failure_not_logged :
    rotate_backups 1
      (fun e => !(e == "config_backup_2024-01-01_000000"))
      ["config_backup_2024-01-01_000000", "config_backup_2024-01-02_000000",
       "config_backup_2024-01-03_000000"]
    = { fs := ["config_backup_2024-01-01_000000",
               "config_backup_2024-01-03_000000"],
        logs := [] } := by
  decide

/-- C7 (amended): failure to delete one individual excess snapshot is
silently swallowed (nothing is logged — the except branch is pass) and
skipped: every excess snapshot is removed exactly when its own deletion
succeeds, independent of other entries' failures, and rotate_backups
returns normally. -/
theorem C7_deletion_failure_localized (M : Nat) (ok : String → Bool)
    (fs : List String) (hnd : fs.Nodup)
    (h : M < (fs.filter snapPat).length) :
    (rotate_backups M ok fs).fs
      = fs.filter (fun e =>
          !(((sortDesc (fs.filter snapPat)).drop M).contains e && ok e))
    ∧ (rotate_backups M ok fs).logs = [] :=
  ⟨rotate_fs_of_gt M ok fs hnd h, rotate_logs M ok fs⟩

/-- Witness for the amended C7 at the counterexample's input. -/
theorem C7_deletion_failure_localized_witness :
    (["config_backup_2024-01-01_000000", "config_backup_2024-01-02_000000",
      "config_backup_2024-01-03_000000"] : List String).Nodup ∧
    1 < ((["config_backup_2024-01-01_000000", "config_backup_2024-01-02_000000",
      "config_backup_2024-01-03_000000"] : List String).filter snapPat).length ∧
    (rotate_backups 1 (fun e => !(e == "config_backup_2024-01-01_000000"))
      ["config_backup_2024-01-01_000000", "config_backup_2024-01-02_000000",
       "config_backup_2024-01-03_000000"]).logs = [] :=
  ⟨by decide, by decide,
    (C7_deletion_failure_localized 1
      (fun e => !(e == "config_backup_2024-01-01_000000"))
      ["config_backup_2024-01-01_000000", "config_backup_2024-01-02_000000",
       "config_backup_2024-01-03_000000"] (by decide) (by decide)).2⟩

end PveConfigBackup

namespace PveConfigBackup

/-! ## Copy Executor lemmas -/

/-- A source path absent from the local filesystem is skipped: the copy
loop behaves exactly as if the path were not configured at all. -/
theorem copyLoop_skip (eod rok : String → Bool) (p : String)
    (hp : eod p = false) (l1 l2 : List String) :
    copyLoop eod rok (l1 ++ p :: l2) = copyLoop eod rok (l1 ++ l2) := by
  induction l1 with
  | nil => simp [copyLoop, hp]
  | cons a l1 ih => simp [copyLoop, ih]

/-- Only paths that exist on disk are ever copied. -/
theorem copyLoop_copied (eod rok : String → Bool) :
    ∀ (src : List String), ∀ q ∈ (copyLoop eod rok src).1, eod q = true := by
  intro src
  induction src with
  | nil =>
    intro q hq
    simp [copyLoop] at hq
  | cons p rest ih =>
    intro q hq
    by_cases hep : eod p = true
    · by_cases hrp : rok p = true
      · simp [copyLoop, hep, hrp] at hq
        rcases hq with h | h
        · subst h
          exact hep
        · exact ih q h
      · simp [copyLoop, hep, hrp] at hq
    · simp [copyLoop, hep] at hq
      exact ih q hq

/-! ## Claims about the Copy Executor -/

/-- C2 counterexample: three source paths, all present on disk, the copy of
the second failing. perform_rsync returns with only the first path copied —
the third path is never copied, because the try/except wraps the whole
loop and the first CalledProcessError aborts it. This refutes the claim
that the executor continues to the next path so that every remaining path
still gets copied. -/
theorem C2_counterexample_copy_stops_at_failure :
    perform_rsync (fun _ => true) (fun p => !(p == "/etc/b")) []
      ["/etc/a", "/etc/b", "/etc/c"] "/mnt/host" (Timestamp.mk 2024 1 1 0 0 0)
      = .ok { backup_path := "/mnt/host/config_backup_2024-01-01_000000"
              success := false
              copied := ["/etc/a"]
              destEntriesAfter := ["config_backup_2024-01-01_000000"]
              logs := [] } := rfl

/-- C2 (amended): a failing copy is caught inside perform_rsync, which
returns success = false instead of raising; copying stops at the failing
path (paths after it are not copied), but the failure is not fatal to the
cycle: the cycle still runs the retention pass on the backup root and
logs the Backup failed outcome. -/
theorem C2_partial_failure_not_fatal (cfg : List String) (M : Nat)
    (host : String) (inp : CycleInput) (s : DaemonState)
    (hm : inp.mounted = true)
    (hfresh : s.hostEntries.contains (snapshotName inp.t) = false)
    (hfail : (copyLoop inp.existsOnDisk inp.rsyncOk cfg).2 = false) :
    runCycleOnce cfg M host inp s
      = .ok { hostRootExists := true
              hostEntries := (rotate_backups M inp.deleteOk
                (snapshotName inp.t :: s.hostEntries)).fs
              logs := s.logs ++ ["Backup failed"] } := by
  have hfresh2 : snapshotName inp.t ∉ s.hostEntries := fun hmem =>
    Bool.false_ne_true (hfresh.symm.trans (contains_eq_true_of_mem hmem))
  simp [runCycleOnce, hm, perform_rsync, hfresh2, hfail, rotate_logs]

/-- Witness for the amended C2: two paths, the first one's copy failing. -/
theorem C2_partial_failure_not_fatal_witness :
    (CycleInput.mk true (Timestamp.mk 2024 1 1 0 0 0)
        (fun _ => true) (fun _ => false) (fun _ => true)).mounted = true ∧
    ([] : List String).contains
      (snapshotName (Timestamp.mk 2024 1 1 0 0 0)) = false ∧
    (copyLoop (fun _ => true) (fun _ => false) ["/etc/a", "/etc/b"]).2 = false ∧
    runCycleOnce ["/etc/a", "/etc/b"] 100 "pve1"
      (CycleInput.mk true (Timestamp.mk 2024 1 1 0 0 0)
        (fun _ => true) (fun _ => false) (fun _ => true))
      (DaemonState.mk false [] [])
      = .ok { hostRootExists := true
              hostEntries := (rotate_backups 100 (fun _ => true)
                (snapshotName (Timestamp.mk 2024 1 1 0 0 0) :: [])).fs
              logs := [] ++ ["Backup failed"] } :=
  ⟨rfl, rfl, rfl,
    C2_partial_failure_not_fatal ["/etc/a", "/etc/b"] 100 "pve1"
      (CycleInput.mk true (Timestamp.mk 2024 1 1 0 0 0)
        (fun _ => true) (fun _ => false) (fun _ => true))
      (DaemonState.mk false [] []) rfl rfl rfl⟩

/-- C8 counterexample: of two configured source paths one is missing on
disk. The cycle completes with only the existing path copied and success
still true, but the executor records nothing at all — logs is empty — so
no warning is recorded for the missing path, refuting that part of the
claim. -/
theorem C8_counterexample_missing_path_no_warning :
    perform_rsync (fun p => p == "/etc/pve/nodes") (fun _ => true) []
      ["/etc/pve/nodes", "/etc/missing"] "/mnt/host"
      (Timestamp.mk 2024 1 1 0 0 0)
      = .ok { backup_path := "/mnt/host/config_backup_2024-01-01_000000"
              success := true
              copied := ["/etc/pve/nodes"]
              destEntriesAfter := ["config_backup_2024-01-01_000000"]
              logs := [] } := rfl

/-- C8 (amended): a configured source path that does not exist at copy time
is skipped silently — the copy behaves exactly as if the path were not
configured, the path is never among the copied ones, and no warning (no
log line at all) is recorded; the missing path is not treated as a
failure and the cycle completes. -/
theorem C8_missing_path_skipped_silently (eod rok : String → Bool)
    (destEntries : List String) (dest : String) (t : Timestamp)
    (l1 l2 : List String) (p : String) (hp : eod p = false) :
    perform_rsync eod rok destEntries (l1 ++ p :: l2) dest t
      = perform_rsync eod rok destEntries (l1 ++ l2) dest t
    ∧ (∀ r, perform_rsync eod rok destEntries (l1 ++ p :: l2) dest t = .ok r →
        p ∉ r.copied ∧ r.logs = []) := by
  constructor
  · simp only [perform_rsync, copyLoop_skip eod rok p hp l1 l2]
  · intro r hr
    simp only [perform_rsync] at hr
    by_cases hc : destEntries.contains (snapshotName t) = true
    · rw [if_pos hc] at hr
      cases hr
    · rw [if_neg hc] at hr
      injection hr with h
      subst h
      refine ⟨fun hmem => ?_, rfl⟩
      have := copyLoop_copied eod rok (l1 ++ p :: l2) p hmem
      rw [hp] at this
      exact Bool.false_ne_true this

/-- Witness for the amended C8 at a concrete missing middle path. -/
theorem C8_missing_path_skipped_silently_witness :
    ((fun q => !(q == "/etc/missing")) "/etc/missing") = false ∧
    perform_rsync (fun q => !(q == "/etc/missing")) (fun _ => true) []
      (["/etc/a"] ++ "/etc/missing" :: ["/etc/b"]) "/mnt/host"
      (Timestamp.mk 2024 1 1 0 0 0)
      = perform_rsync (fun q => !(q == "/etc/missing")) (fun _ => true) []
        (["/etc/a"] ++ ["/etc/b"]) "/mnt/host" (Timestamp.mk 2024 1 1 0 0 0) :=
  ⟨rfl,
    (C8_missing_path_skipped_silently (fun q => !(q == "/etc/missing"))
      (fun _ => true) [] "/mnt/host" (Timestamp.mk 2024 1 1 0 0 0)
      ["/etc/a"] ["/etc/b"] "/etc/missing" rfl).1⟩

/-- C9: when the fresh snapshot directory creation succeeds (the derived
name is not already present), perform_rsync returns normally with that
directory's path, and the directory is present among the destination's
entries afterwards, whatever the per-path outcomes — including every copy
failing. -/
theorem C9_snapshot_dir_created_and_returned (eod rok : String → Bool)
    (destEntries source : List String) (dest : String) (t : Timestamp)
    (hfresh : destEntries.contains (snapshotName t) = false) :
    ∃ r, perform_rsync eod rok destEntries source dest t = .ok r
      ∧ r.backup_path = dest ++ "/" ++ snapshotName t
      ∧ r.destEntriesAfter.contains (snapshotName t) = true := by
  refine ⟨{ backup_path := dest ++ "/" ++ snapshotName t
            success := (copyLoop eod rok source).2
            copied := (copyLoop eod rok source).1
            destEntriesAfter := snapshotName t :: destEntries
            logs := [] }, ?_, rfl, ?_⟩
  · have hfresh2 : snapshotName t ∉ destEntries := fun hmem =>
      Bool.false_ne_true (hfresh.symm.trans (contains_eq_true_of_mem hmem))
    simp [perform_rsync, hfresh2]
  · simp [List.contains_cons]

/-- Witness for C9 with every copy failing: the directory still exists and
its path is still returned. -/
theorem C9_snapshot_dir_created_and_returned_witness :
    ([] : List String).contains
      (snapshotName (Timestamp.mk 2024 1 1 0 0 0)) = false ∧
    ∃ r, perform_rsync (fun _ => true) (fun _ => false) [] ["/etc/a"]
        "/mnt/host" (Timestamp.mk 2024 1 1 0 0 0) = .ok r
      ∧ r.backup_path = "/mnt/host" ++ "/"
          ++ snapshotName (Timestamp.mk 2024 1 1 0 0 0)
      ∧ r.destEntriesAfter.contains
          (snapshotName (Timestamp.mk 2024 1 1 0 0 0)) = true :=
  ⟨rfl,
    C9_snapshot_dir_created_and_returned (fun _ => true) (fun _ => false)
      [] ["/etc/a"] "/mnt/host" (Timestamp.mk 2024 1 1 0 0 0) rfl⟩

/-- C10: snapshot creation never silently reuses an existing directory:
when a second perform_rsync call on the same destination derives the same
identifier (same wall-clock second), os.makedirs — called without
exist_ok — raises FileExistsError. -/
theorem C10_same_second_invocation_raises (eod rok eod2 rok2 : String → Bool)
    (destEntries source source2 : List String) (dest : String)
    (t1 t2 : Timestamp) (hsame : snapshotName t2 = snapshotName t1)
    (r : RsyncResult)
    (hr : perform_rsync eod rok destEntries source dest t1 = .ok r) :
    perform_rsync eod2 rok2 r.destEntriesAfter source2 dest t2
      = .error "FileExistsError" := by
  simp only [perform_rsync] at hr
  by_cases hc : destEntries.contains (snapshotName t1) = true
  · rw [if_pos hc] at hr
    cases hr
  · rw [if_neg hc] at hr
    injection hr with h
    subst h
    simp [perform_rsync, hsame, List.contains_cons]

/-- Witness for C10: two same-second invocations on one destination. -/
theorem C10_same_second_invocation_raises_witness :
    snapshotName (Timestamp.mk 2024 1 1 0 0 0)
      = snapshotName (Timestamp.mk 2024 1 1 0 0 0) ∧
    perform_rsync (fun _ => true) (fun _ => true) [] ["/etc/a"] "/mnt/host"
      (Timestamp.mk 2024 1 1 0 0 0)
      = .ok { backup_path := "/mnt/host/config_backup_2024-01-01_000000"
              success := true
              copied := ["/etc/a"]
              destEntriesAfter := ["config_backup_2024-01-01_000000"]
              logs := [] } ∧
    perform_rsync (fun _ => true) (fun _ => true)
      (RsyncResult.mk "/mnt/host/config_backup_2024-01-01_000000" true
        ["/etc/a"] ["config_backup_2024-01-01_000000"] []).destEntriesAfter
      ["/etc/a"] "/mnt/host" (Timestamp.mk 2024 1 1 0 0 0)
      = .error "FileExistsError" :=
  ⟨rfl, rfl,
    C10_same_second_invocation_raises (fun _ => true) (fun _ => true)
      (fun _ => true) (fun _ => true) [] ["/etc/a"] ["/etc/a"] "/mnt/host"
      (Timestamp.mk 2024 1 1 0 0 0) (Timestamp.mk 2024 1 1 0 0 0) rfl
      (RsyncResult.mk "/mnt/host/config_backup_2024-01-01_000000" true
        ["/etc/a"] ["config_backup_2024-01-01_000000"] []) rfl⟩

end PveConfigBackup

namespace PveConfigBackup

/-! ## Claims about the Cycle Controller and Daemon Loop -/

/-- C4: when the mount check returns false, the cycle only logs a skip
line: the host backup root is not created, no snapshot directory is
created, the entries are untouched (zero deletions), and the cycle ends
normally. -/
theorem C4_unmounted_cycle_is_noop (cfg : List String) (M : Nat)
    (host : String) (inp : CycleInput) (s : DaemonState)
    (hm : inp.mounted = false) :
    runCycleOnce cfg M host inp s
      = .ok { hostRootExists := s.hostRootExists
              hostEntries := s.hostEntries
              logs := s.logs ++ ["NFS not mounted, skipping backup cycle"] } := by
  simp [runCycleOnce, hm]

/-- Witness for C4: an unmounted cycle over a fresh state. -/
theorem C4_unmounted_cycle_is_noop_witness :
    (CycleInput.mk false (Timestamp.mk 2024 1 1 0 0 0)
      (fun _ => true) (fun _ => true) (fun _ => true)).mounted = false ∧
    runCycleOnce CONFIG_config_paths CONFIG_max_backups "pve1"
      (CycleInput.mk false (Timestamp.mk 2024 1 1 0 0 0)
        (fun _ => true) (fun _ => true) (fun _ => true))
      (DaemonState.mk false [] [])
      = .ok { hostRootExists := false
              hostEntries := []
              logs := [] ++ ["NFS not mounted, skipping backup cycle"] } :=
  ⟨rfl,
    C4_unmounted_cycle_is_noop CONFIG_config_paths CONFIG_max_backups "pve1"
      (CycleInput.mk false (Timestamp.mk 2024 1 1 0 0 0)
        (fun _ => true) (fun _ => true) (fun _ => true))
      (DaemonState.mk false [] []) rfl⟩

/-- C3 counterexample: two cycles inside the same wall-clock second on an
initially empty backup root. The first cycle succeeds; the second derives
the same snapshot name, os.makedirs raises FileExistsError, and — since
run_daemon has no try/except around the loop body — the daemon run
terminates with that error instead of continuing, refuting the claim that
the daemon never terminates due to an internal cycle error. -/
theorem C3_counterexample_daemon_dies :
    run_daemon CONFIG_config_paths CONFIG_max_backups "pve1"
      [CycleInput.mk true (Timestamp.mk 2024 1 1 0 0 0)
         (fun _ => true) (fun _ => true) (fun _ => true),
       CycleInput.mk true (Timestamp.mk 2024 1 1 0 0 0)
         (fun _ => true) (fun _ => true) (fun _ => true)]
      (DaemonState.mk false [] [])
      = .error "FileExistsError" := rfl

/-- C3 (amended): run_daemon contains no exception handler, so any
exception raised inside one cycle propagates out of the loop and
terminates the daemon run with that error; later cycles never run.
Recovery is left to the service manager (the unit file sets
Restart=always), not to the loop. -/
theorem C3_cycle_exception_terminates_daemon (cfg : List String) (M : Nat)
    (host : String) (inp : CycleInput) (rest : List CycleInput)
    (s : DaemonState) (e : String)
    (h : runCycleOnce cfg M host inp s = .error e) :
    run_daemon cfg M host (inp :: rest) s = .error e := by
  simp [run_daemon, h]

/-- Witness for the amended C3: a cycle whose snapshot name collides with
an existing entry raises, and the one-step daemon run returns that error. -/
theorem C3_cycle_exception_terminates_daemon_witness :
    runCycleOnce CONFIG_config_paths CONFIG_max_backups "pve1"
      (CycleInput.mk true (Timestamp.mk 2024 1 1 0 0 0)
        (fun _ => true) (fun _ => true) (fun _ => true))
      (DaemonState.mk true [snapshotName (Timestamp.mk 2024 1 1 0 0 0)] [])
      = .error "FileExistsError" ∧
    run_daemon CONFIG_config_paths CONFIG_max_backups "pve1"
      [CycleInput.mk true (Timestamp.mk 2024 1 1 0 0 0)
        (fun _ => true) (fun _ => true) (fun _ => true)]
      (DaemonState.mk true [snapshotName (Timestamp.mk 2024 1 1 0 0 0)] [])
      = .error "FileExistsError" :=
  ⟨rfl,
    C3_cycle_exception_terminates_daemon CONFIG_config_paths
      CONFIG_max_backups "pve1"
      (CycleInput.mk true (Timestamp.mk 2024 1 1 0 0 0)
        (fun _ => true) (fun _ => true) (fun _ => true))
      []
      (DaemonState.mk true [snapshotName (Timestamp.mk 2024 1 1 0 0 0)] [])
      "FileExistsError" rfl⟩

end PveConfigBackup
